import Mathlib

/-!
Verification of the FaultDetection-FSM repository.

The repository ships a Verilator C++ harness (`src/sim/main.cpp`) that drives a
battery fault-monitoring FSM (`Vfault_fsm`).  The harness helpers `pack_cells`,
`tick` and `sc_time_stamp` are embedded below directly from the C++ source.
The monitored FSM itself is not part of the C++ sources, so its cycle
behaviour is modelled from the specification's behavioural contract
(§3 data model and §4.1 step algorithm).
-/

namespace FaultFSM

/-- Modelled from the spec: the severity ladder of the fault FSM
(`state` output, encoded 0-3); the FSM module itself is missing from the
C++ sources. -/
inductive Sev where
  | NORMAL
  | WARNING
  | FAULT
  | SHUTDOWN
deriving DecidableEq, Repr

/-- Hardware encoding of the severity states (0-3). -/
def Sev.toNat : Sev → Nat
  | .NORMAL => 0
  | .WARNING => 1
  | .FAULT => 2
  | .SHUTDOWN => 3

/-- Modelled from the spec: the latched fault code
(`active_fault_code` output, encoded 0-3). -/
inductive FCode where
  | NONE
  | VOLTAGE
  | CURRENT
  | TEMPERATURE
deriving DecidableEq, Repr

instance : Fintype FCode :=
  ⟨⟨{FCode.NONE, FCode.VOLTAGE, FCode.CURRENT, FCode.TEMPERATURE}, by decide⟩,
   by intro x; cases x <;> decide⟩

/-- Severity rank of a fault code: TEMPERATURE > CURRENT > VOLTAGE > NONE. -/
def FCode.rank : FCode → Nat
  | .NONE => 0
  | .VOLTAGE => 1
  | .CURRENT => 2
  | .TEMPERATURE => 3

/-- Modelled from the spec: construction-time configuration of the monitor.
The exact debounce thresholds and in-range predicates are open configuration
parameters in the spec, so they are carried abstractly. -/
structure Config where
  warnThresh : Nat
  faultThresh : Nat
  cellOk : Nat → Bool
  currentOk : Nat → Bool
  tempOk : Nat → Bool

/-- Modelled from the spec: the per-cycle input vector the harness feeds
into the FSM. -/
structure Inputs where
  cells : List Nat
  current_raw : Nat
  temp_raw : Nat
  mask_voltage : Bool
  mask_current : Bool
  mask_temp : Bool
  manual_reset : Bool

/-- Modelled from the spec: the monitor's register state (severity state,
latched code, per-channel debounce counters, telemetry counters). -/
structure MState where
  state : Sev
  active_fault_code : FCode
  dbV : Nat
  dbC : Nat
  dbT : Nat
  fault_count : Nat
  warning_count : Nat
  last_fault_cycle : Nat
deriving DecidableEq, Repr

/-- Modelled from the spec: power-on reset state (NORMAL, all counters 0). -/
def initState : MState :=
  { state := Sev.NORMAL, active_fault_code := FCode.NONE,
    dbV := 0, dbC := 0, dbT := 0,
    fault_count := 0, warning_count := 0, last_fault_cycle := 0 }

/-- The external mask bit of each channel (NONE has no mask). -/
def chMask (inp : Inputs) : FCode → Bool
  | .NONE => false
  | .VOLTAGE => inp.mask_voltage
  | .CURRENT => inp.mask_current
  | .TEMPERATURE => inp.mask_temp

/-- Modelled from the spec: raw out-of-range test per channel, ignoring the
mask; the voltage channel is out-of-range if ANY cell is out-of-range. -/
def chRawOut (cfg : Config) (inp : Inputs) : FCode → Bool
  | .NONE => false
  | .VOLTAGE => inp.cells.any fun v => !cfg.cellOk v
  | .CURRENT => !cfg.currentOk inp.current_raw
  | .TEMPERATURE => !cfg.tempOk inp.temp_raw

/-- A channel drives its debounce counter when it is unmasked and its
reading is out-of-range. -/
def chOut (cfg : Config) (inp : Inputs) (X : FCode) : Bool :=
  !chMask inp X && chRawOut cfg inp X

/-- The debounce counter of a channel in a monitor state. -/
def chDb (s : MState) : FCode → Nat
  | .NONE => 0
  | .VOLTAGE => s.dbV
  | .CURRENT => s.dbC
  | .TEMPERATURE => s.dbT

/-- Modelled from the spec, step 2: next value of a channel's debounce
counter — increment while out-of-range and unmasked, otherwise reset to 0. -/
def dbNext (cfg : Config) (inp : Inputs) (s : MState) (X : FCode) : Nat :=
  if chOut cfg inp X then chDb s X + 1 else 0

/-- Modelled from the spec, step 3: an unmasked channel whose (updated)
debounce counter reaches the FAULT threshold. -/
def faultCross (cfg : Config) (inp : Inputs) (s : MState) (X : FCode) : Bool :=
  !chMask inp X && decide (cfg.faultThresh ≤ dbNext cfg inp s X)

/-- Modelled from the spec, step 3: an unmasked channel whose (updated)
debounce counter reaches the WARNING threshold. -/
def warnCross (cfg : Config) (inp : Inputs) (s : MState) (X : FCode) : Bool :=
  !chMask inp X && decide (cfg.warnThresh ≤ dbNext cfg inp s X)

/-- Modelled from the spec, steps 1-4 of §4.1: one evaluation cycle of the
FaultMonitor (the `Vfault_fsm` module, absent from the C++ sources).
Manual reset overrides everything; otherwise debounce counters are updated,
then escalation is resolved with the fixed priority
TEMPERATURE > CURRENT > VOLTAGE.  The SHUTDOWN-entry predicate is left open
by the spec and never exercised, so no transition enters SHUTDOWN here. -/
def step (cfg : Config) (inp : Inputs) (cyc : Nat) (s : MState) : MState :=
  if inp.manual_reset then
    { s with state := Sev.NORMAL, active_fault_code := FCode.NONE,
             dbV := 0, dbC := 0, dbT := 0 }
  else
    let fV := faultCross cfg inp s FCode.VOLTAGE
    let fC := faultCross cfg inp s FCode.CURRENT
    let fT := faultCross cfg inp s FCode.TEMPERATURE
    let wV := warnCross cfg inp s FCode.VOLTAGE
    let wC := warnCross cfg inp s FCode.CURRENT
    let wT := warnCross cfg inp s FCode.TEMPERATURE
    let fcode := if fT then FCode.TEMPERATURE else if fC then FCode.CURRENT
      else if fV then FCode.VOLTAGE else FCode.NONE
    if (fV || fC || fT) && decide (s.state = Sev.NORMAL ∨ s.state = Sev.WARNING) then
      { state := Sev.FAULT, active_fault_code := fcode,
        dbV := dbNext cfg inp s FCode.VOLTAGE,
        dbC := dbNext cfg inp s FCode.CURRENT,
        dbT := dbNext cfg inp s FCode.TEMPERATURE,
        fault_count := s.fault_count + 1,
        warning_count := s.warning_count,
        last_fault_cycle := cyc }
    else if (wV || wC || wT) && decide (s.state = Sev.NORMAL) then
      { s with state := Sev.WARNING,
               warning_count := s.warning_count + 1,
               dbV := dbNext cfg inp s FCode.VOLTAGE,
               dbC := dbNext cfg inp s FCode.CURRENT,
               dbT := dbNext cfg inp s FCode.TEMPERATURE }
    else
      { s with dbV := dbNext cfg inp s FCode.VOLTAGE,
               dbC := dbNext cfg inp s FCode.CURRENT,
               dbT := dbNext cfg inp s FCode.TEMPERATURE }

/-- Run the monitor over a list of per-cycle inputs, starting at cycle `c`. -/
def run (cfg : Config) : MState → Nat → List Inputs → MState
  | s, _, [] => s
  | s, c, inp :: rest => run cfg (step cfg inp c s) (c + 1) rest

/-- Modelled from the spec: the `fault_latched` output, true whenever the
state is FAULT or SHUTDOWN. -/
def fault_latched (s : MState) : Bool :=
  decide (s.state = Sev.FAULT) || decide (s.state = Sev.SHUTDOWN)

/-- Concrete configuration used by the witnesses: thresholds consistent with
the exercised scenarios (a 4-cycle spike is below the WARNING debounce, a
300-cycle excursion is beyond the FAULT debounce), cell codes nominal at 360,
current nominal at 100, temperature nominal at 40. -/
def cfgW : Config :=
  { warnThresh := 8, faultThresh := 40,
    cellOk := fun v => decide (300 ≤ v) && decide (v ≤ 420),
    currentOk := fun c => decide (c ≤ 150),
    tempOk := fun t => decide (t ≤ 60) }

/-- Input-vector builder for the witnesses. -/
def mkInp (cells : List Nat) (cur tp : Nat) (mv mc mt mr : Bool) : Inputs :=
  { cells := cells, current_raw := cur, temp_raw := tp,
    mask_voltage := mv, mask_current := mc, mask_temp := mt, manual_reset := mr }

/-- Nominal input vector of the harness (cells 360, current 100, temp 40). -/
def nomI : Inputs := mkInp [360, 360, 360, 360] 100 40 false false false false

/-- Transient-spike input vector of the harness (one cell at 290). -/
def spikeI : Inputs := mkInp [360, 290, 360, 360] 100 40 false false false false

/-- Persistent-undervolt input vector of the harness (one cell at 280). -/
def uvI : Inputs := mkInp [360, 360, 280, 360] 100 40 false false false false

/-- Manual-reset input vector of the harness. -/
def rstI : Inputs := mkInp [360, 360, 270, 360] 100 40 true false false true

/-- A faulted monitor state, as reached by the harness's undervolt phase. -/
def faultedS : MState :=
  { state := Sev.FAULT, active_fault_code := FCode.VOLTAGE,
    dbV := 300, dbC := 0, dbT := 0,
    fault_count := 1, warning_count := 1, last_fault_cycle := 183 }

/-- Masked-undervolt input vector of the harness (cell at 270 with
`mask_voltage` set). -/
def maskedI : Inputs := mkInp [360, 360, 270, 360] 100 40 true false false false

/-- A state with a long-running voltage excursion, used while the voltage
channel is masked. -/
def maskedS : MState :=
  { state := Sev.NORMAL, active_fault_code := FCode.NONE,
    dbV := 120, dbC := 0, dbT := 0,
    fault_count := 0, warning_count := 0, last_fault_cycle := 0 }

/-- Input vector on which both current (220) and temperature (90) read
out-of-range simultaneously. -/
def coincI : Inputs := mkInp [360, 360, 360, 360] 220 90 false false false false

/-- A state whose current and temperature debounce counters are one cycle
away from the FAULT threshold of `cfgW`. -/
def coincS : MState :=
  { state := Sev.NORMAL, active_fault_code := FCode.NONE,
    dbV := 0, dbC := 39, dbT := 39,
    fault_count := 0, warning_count := 0, last_fault_cycle := 0 }

end FaultFSM

namespace HarnessModel

/-- State of the C++ harness's stepping loop: the driven clock wire, the
global `main_time` counter used by `sc_time_stamp`, the completed-cycle
counter, and the trace of clock values at which the model was evaluated. -/
structure HState where
  clk : Bool
  main_time : Nat
  cycle : Nat
  evalTrace : List Bool

/-- One eval phase of `tick`: drive `clk`, evaluate the model, then advance
`main_time` by 5. -/
def evalPhase (c : Bool) (h : HState) : HState :=
  { h with clk := c, evalTrace := h.evalTrace ++ [c], main_time := h.main_time + 5 }

/-- The harness's `tick` lambda: clk low / high / low eval phases, each
advancing `main_time` by 5, then `cycle++`. -/
def tick (h : HState) : HState :=
  let h1 := evalPhase false h
  let h2 := evalPhase true h1
  let h3 := evalPhase false h2
  { h3 with cycle := h3.cycle + 1 }

/-- The harness's `sc_time_stamp` returns the global `main_time`. -/
def sc_time_stamp (h : HState) : Nat := h.main_time

/-- Harness start state: `main_time = 0`, `cycle = 0`, clock low. -/
def harness0 : HState := { clk := false, main_time := 0, cycle := 0, evalTrace := [] }

/-- The harness after `n` calls to `tick`. -/
def ticks : Nat → HState
  | 0 => harness0
  | n + 1 => tick (ticks n)

/-- Loop body of the harness helper `pack_cells`: for each value, in index
order, OR the value masked to its low `W` bits
(`vals[i] & ((1u << W) - 1)`, i.e. `vals[i] mod 2 ^ W`) into the
accumulator at bit offset `i * W`. -/
def pack_cells_go (W : Nat) : List Nat → Nat → Nat → Nat
  | [], _, packed => packed
  | v :: rest, i, packed =>
      pack_cells_go W rest (i + 1) (packed ||| ((v % 2 ^ W) <<< (i * W)))

/-- The harness helper `pack_cells` from src/sim/main.cpp: packs the cell
values into one word, `W` bits per field, starting from 0. -/
def pack_cells (vals : List Nat) (W : Nat) : Nat :=
  pack_cells_go W vals 0 0

/-- Arithmetic (positional) reading of the packed word, used to reason
about `pack_cells`: the value list as a base-`2 ^ W` numeral. -/
def packVal (W : Nat) : List Nat → Nat
  | [] => 0
  | v :: rest => v % 2 ^ W + 2 ^ W * packVal W rest

end HarnessModel

namespace FaultFSM

theorem run_append (cfg : Config) (s : MState) (c : Nat) (l1 l2 : List Inputs) :
    run cfg s c (l1 ++ l2) = run cfg (run cfg s c l1) (c + l1.length) l2 := by
  induction l1 generalizing s c with
  | nil => simp [run]
  | cons a l ih =>
      have h : c + 1 + l.length = c + (l.length + 1) := by omega
      simp only [List.cons_append, run, List.length_cons, List.append_eq]
      rw [ih, h]

/-- C4: while `manual_reset` is asserted, the next evaluated cycle forces
`state = NORMAL`, `active_fault_code = NONE` and clears all per-channel
debounce counters, whatever the prior state was, while `fault_count`,
`warning_count` and `last_fault_cycle` are left unchanged (steps 2-4 of the
cycle algorithm are skipped). -/
theorem C4_manual_reset_frame (cfg : Config) (inp : Inputs) (c : Nat) (s : MState)
    (hr : inp.manual_reset = true) :
    (step cfg inp c s).state = Sev.NORMAL ∧
    (step cfg inp c s).active_fault_code = FCode.NONE ∧
    (step cfg inp c s).dbV = 0 ∧
    (step cfg inp c s).dbC = 0 ∧
    (step cfg inp c s).dbT = 0 ∧
    (step cfg inp c s).fault_count = s.fault_count ∧
    (step cfg inp c s).warning_count = s.warning_count ∧
    (step cfg inp c s).last_fault_cycle = s.last_fault_cycle := by
  simp [step, hr]

/-- C4 witness: manual reset applied to a faulted state with nonzero
counters returns to NORMAL/NONE with the counters preserved. -/
theorem C4_manual_reset_frame_witness :
    rstI.manual_reset = true ∧
    ((step cfgW rstI 184 faultedS).state = Sev.NORMAL ∧
     (step cfgW rstI 184 faultedS).active_fault_code = FCode.NONE ∧
     (step cfgW rstI 184 faultedS).dbV = 0 ∧
     (step cfgW rstI 184 faultedS).dbC = 0 ∧
     (step cfgW rstI 184 faultedS).dbT = 0 ∧
     (step cfgW rstI 184 faultedS).fault_count = faultedS.fault_count ∧
     (step cfgW rstI 184 faultedS).warning_count = faultedS.warning_count ∧
     (step cfgW rstI 184 faultedS).last_fault_cycle = faultedS.last_fault_cycle) :=
  ⟨rfl, C4_manual_reset_frame cfgW rstI 184 faultedS rfl⟩

/-- C5: the `fault_latched` output is true exactly when the state is FAULT
or SHUTDOWN, i.e. exactly when the 0-3 encoding of the state is 2 or 3. -/
theorem C5_fault_latched_iff (s : MState) :
    (fault_latched s = true ↔ (s.state = Sev.FAULT ∨ s.state = Sev.SHUTDOWN)) ∧
    (fault_latched s = true ↔ (Sev.toNat s.state = 2 ∨ Sev.toNat s.state = 3)) := by
  obtain ⟨st, code, dv, dc, dt, fc, wc, lf⟩ := s
  cases st <;> simp [fault_latched, Sev.toNat]

/-- C8: without manual reset the severity never decreases in one step
(NORMAL < WARNING < FAULT < SHUTDOWN); the only severity-lowering
transition is the collapse to NORMAL under manual reset. -/
theorem C8_no_auto_deescalation (cfg : Config) (inp : Inputs) (c : Nat) (s : MState) :
    (inp.manual_reset = false →
      Sev.toNat s.state ≤ Sev.toNat ((step cfg inp c s).state)) ∧
    (inp.manual_reset = true → (step cfg inp c s).state = Sev.NORMAL) := by
  constructor
  · intro hr
    simp only [step, hr, Bool.false_eq_true, if_false]
    split
    · rename_i hcond
      simp only [Bool.and_eq_true, decide_eq_true_eq] at hcond
      rcases hcond.2 with h | h <;> simp [h, Sev.toNat]
    · split
      · rename_i hcond
        simp only [Bool.and_eq_true, decide_eq_true_eq] at hcond
        simp [hcond.2, Sev.toNat]
      · exact Nat.le_refl _
  · intro hr
    simp [step, hr]

/-- C8 witness: a non-reset nominal step from the faulted state does not
lower severity, and a reset step collapses it to NORMAL. -/
theorem C8_no_auto_deescalation_witness :
    (nomI.manual_reset = false ∧
      Sev.toNat faultedS.state ≤ Sev.toNat ((step cfgW nomI 184 faultedS).state)) ∧
    (rstI.manual_reset = true ∧ (step cfgW rstI 184 faultedS).state = Sev.NORMAL) :=
  ⟨⟨rfl, (C8_no_auto_deescalation cfgW nomI 184 faultedS).1 rfl⟩,
   ⟨rfl, (C8_no_auto_deescalation cfgW rstI 184 faultedS).2 rfl⟩⟩

/-- The debounce counter after one step: forced to zero by manual reset,
otherwise the step-2 update, in every branch of the step function. -/
theorem chDb_step (cfg : Config) (inp : Inputs) (c : Nat) (s : MState) (X : FCode) :
    chDb (step cfg inp c s) X =
      if inp.manual_reset then 0 else dbNext cfg inp s X := by
  simp only [step]
  split
  · cases X <;> simp [chDb, dbNext, chOut, chMask, chRawOut]
  · split
    · cases X <;> simp [chDb, dbNext, chOut, chMask, chRawOut]
    · split
      · cases X <;> simp [chDb, dbNext, chOut, chMask, chRawOut]
      · cases X <;> simp [chDb, dbNext, chOut, chMask, chRawOut]

/-- A masked channel can never become the newly latched fault code. -/
theorem masked_not_latched (cfg : Config) (inp : Inputs) (c : Nat) (s : MState)
    (X : FCode) (hmask : chMask inp X = true)
    (hne : s.active_fault_code ≠ X) :
    (step cfg inp c s).active_fault_code ≠ X := by
  simp only [step]
  split
  · cases X <;> simp_all [chMask]
  · split
    · cases X <;> simp_all [chMask, faultCross] <;> split <;> simp_all <;> split <;> simp_all
    · split
      · exact hne
      · exact hne

/-- C2: a masked channel's debounce counter is forced to zero regardless of
its reading, and a masked channel never becomes the latched
`active_fault_code`; more precisely the counter advances (by one) exactly
when the cycle is not a manual reset, the channel is unmasked, and its
reading is out-of-range, and any in-range reading or active mask resets it
to zero. -/
theorem C2_masking (cfg : Config) (inp : Inputs) (c : Nat) (s : MState) (X : FCode) :
    (chMask inp X = true → chDb (step cfg inp c s) X = 0) ∧
    (chDb (step cfg inp c s) X = chDb s X + 1 ↔
      (inp.manual_reset = false ∧ chMask inp X = false ∧ chRawOut cfg inp X = true)) ∧
    ((chMask inp X = true ∨ chRawOut cfg inp X = false) → chDb (step cfg inp c s) X = 0) ∧
    (chMask inp X = true → s.active_fault_code ≠ X →
      (step cfg inp c s).active_fault_code ≠ X) := by
  refine ⟨?_, ?_, ?_, masked_not_latched cfg inp c s X⟩
  · intro hmask
    rw [chDb_step]
    split
    · rfl
    · simp [dbNext, chOut, hmask]
  · rw [chDb_step]
    by_cases hr : inp.manual_reset = true
    · simp [hr]
    · rw [Bool.not_eq_true] at hr
      simp only [hr, Bool.false_eq_true, if_false, dbNext, chOut]
      by_cases hmask : chMask inp X = true
      · simp [hmask]
      · rw [Bool.not_eq_true] at hmask
        by_cases hraw : chRawOut cfg inp X = true
        · simp [hmask, hraw]
        · rw [Bool.not_eq_true] at hraw
          simp [hmask, hraw]
  · intro h
    rw [chDb_step]
    split
    · rfl
    · rcases h with h | h <;> simp [dbNext, chOut, h]

/-- C2 witness: with the voltage channel masked and a cell held at 270
(out-of-range), the voltage debounce counter is forced to zero and the
latched code stays clear of VOLTAGE. -/
theorem C2_masking_witness :
    chMask maskedI FCode.VOLTAGE = true ∧
    chRawOut cfgW maskedI FCode.VOLTAGE = true ∧
    chDb (step cfgW maskedI 304 maskedS) FCode.VOLTAGE = 0 ∧
    (step cfgW maskedI 304 maskedS).active_fault_code ≠ FCode.VOLTAGE :=
  ⟨by decide, by decide,
   (C2_masking cfgW maskedI 304 maskedS FCode.VOLTAGE).1 (by decide),
   (C2_masking cfgW maskedI 304 maskedS FCode.VOLTAGE).2.2.2 (by decide) (by decide)⟩

/-- No channel ever crosses the FAULT threshold through the NONE code when
the configured threshold is positive. -/
theorem faultCross_none (cfg : Config) (inp : Inputs) (s : MState)
    (h : 0 < cfg.faultThresh) : faultCross cfg inp s FCode.NONE = false := by
  simp [faultCross, dbNext, chOut, chMask, chRawOut]
  omega

/-- C3: when at least two distinct unmasked channels cross the FAULT
threshold in the same cycle (state still NORMAL or WARNING, no manual
reset, positive threshold), the latched `active_fault_code` is itself a
crossing channel and has maximal severity rank among all crossing channels,
under the fixed order TEMPERATURE > CURRENT > VOLTAGE > NONE. -/
theorem C3_priority (cfg : Config) (inp : Inputs) (c : Nat) (s : MState)
    (hr : inp.manual_reset = false)
    (hs : s.state = Sev.NORMAL ∨ s.state = Sev.WARNING)
    (hf0 : 0 < cfg.faultThresh)
    (X Y : FCode) (hXY : X ≠ Y)
    (hX : faultCross cfg inp s X = true) (hY : faultCross cfg inp s Y = true) :
    faultCross cfg inp s ((step cfg inp c s).active_fault_code) = true ∧
    ∀ Z : FCode, faultCross cfg inp s Z = true →
      FCode.rank Z ≤ FCode.rank ((step cfg inp c s).active_fault_code) := by
  have hbranch : (faultCross cfg inp s FCode.VOLTAGE || faultCross cfg inp s FCode.CURRENT
      || faultCross cfg inp s FCode.TEMPERATURE) = true := by
    cases X with
    | NONE => rw [faultCross_none cfg inp s hf0] at hX; exact absurd hX (by simp)
    | VOLTAGE => simp [hX]
    | CURRENT => simp [hX]
    | TEMPERATURE => simp [hX]
  have hstep : (step cfg inp c s).active_fault_code =
      (if faultCross cfg inp s FCode.TEMPERATURE = true then FCode.TEMPERATURE
       else if faultCross cfg inp s FCode.CURRENT = true then FCode.CURRENT
       else if faultCross cfg inp s FCode.VOLTAGE = true then FCode.VOLTAGE
       else FCode.NONE) := by
    simp only [step, hr, Bool.false_eq_true, if_false]
    rw [if_pos (by simp [hbranch, hs])]
  rw [hstep]
  by_cases hfT : faultCross cfg inp s FCode.TEMPERATURE = true
  · rw [if_pos hfT]
    exact ⟨hfT, fun Z _ => by cases Z <;> decide⟩
  · by_cases hfC : faultCross cfg inp s FCode.CURRENT = true
    · rw [if_neg hfT, if_pos hfC]
      refine ⟨hfC, fun Z hZ => ?_⟩
      cases Z with
      | NONE => decide
      | VOLTAGE => decide
      | CURRENT => decide
      | TEMPERATURE => exact absurd hZ hfT
    · by_cases hfV : faultCross cfg inp s FCode.VOLTAGE = true
      · rw [if_neg hfT, if_neg hfC, if_pos hfV]
        refine ⟨hfV, fun Z hZ => ?_⟩
        cases Z with
        | NONE => decide
        | VOLTAGE => decide
        | CURRENT => exact absurd hZ hfC
        | TEMPERATURE => exact absurd hZ hfT
      · exfalso
        simp only [Bool.or_eq_true] at hbranch
        rcases hbranch with (h | h) | h
        · exact absurd h hfV
        · exact absurd h hfC
        · exact absurd h hfT

/-- C3 witness: current (code 220) and temperature (code 90) cross the
FAULT threshold on the same cycle; TEMPERATURE, the higher-ranked channel,
is latched. -/
theorem C3_priority_witness :
    (step cfgW coincI 200 coincS).active_fault_code = FCode.TEMPERATURE ∧
    (faultCross cfgW coincI coincS ((step cfgW coincI 200 coincS).active_fault_code) = true ∧
     ∀ Z : FCode, faultCross cfgW coincI coincS Z = true →
       FCode.rank Z ≤ FCode.rank ((step cfgW coincI 200 coincS).active_fault_code)) :=
  ⟨by decide,
   C3_priority cfgW coincI 200 coincS rfl (by decide) (by decide)
     FCode.TEMPERATURE FCode.CURRENT (by decide) (by decide) (by decide)⟩

/-- The severity state after one step, in every branch of the step
function. -/
theorem state_step (cfg : Config) (inp : Inputs) (c : Nat) (s : MState) :
    (step cfg inp c s).state =
      if inp.manual_reset then Sev.NORMAL
      else if ((faultCross cfg inp s FCode.VOLTAGE || faultCross cfg inp s FCode.CURRENT
          || faultCross cfg inp s FCode.TEMPERATURE)
          && decide (s.state = Sev.NORMAL ∨ s.state = Sev.WARNING)) then Sev.FAULT
      else if ((warnCross cfg inp s FCode.VOLTAGE || warnCross cfg inp s FCode.CURRENT
          || warnCross cfg inp s FCode.TEMPERATURE)
          && decide (s.state = Sev.NORMAL)) then Sev.WARNING
      else s.state := by
  simp only [step]
  split
  · rfl
  · split
    · rfl
    · split
      · rfl
      · rfl

/-- C7: per evaluation step, `fault_count` and `warning_count` never
decrease; `last_fault_cycle` changes only when a FAULT-level escalation
happens on that very step (in which case it becomes the current cycle
index and `fault_count` is incremented), so along a run it never
decreases; and none of the three counters gates the FSM transition: two
states agreeing on severity and debounce counters step to the same
severity whatever their counters hold. -/
theorem C7_counter_telemetry (cfg : Config) (inp : Inputs) (c : Nat) (s : MState) :
    s.fault_count ≤ (step cfg inp c s).fault_count ∧
    s.warning_count ≤ (step cfg inp c s).warning_count ∧
    ((step cfg inp c s).last_fault_cycle ≠ s.last_fault_cycle →
      (step cfg inp c s).state = Sev.FAULT ∧
      (step cfg inp c s).fault_count = s.fault_count + 1 ∧
      (step cfg inp c s).last_fault_cycle = c) ∧
    (s.last_fault_cycle ≤ c → s.last_fault_cycle ≤ (step cfg inp c s).last_fault_cycle) ∧
    (∀ s' : MState, s'.state = s.state → s'.dbV = s.dbV → s'.dbC = s.dbC →
      s'.dbT = s.dbT → (step cfg inp c s').state = (step cfg inp c s).state) := by
  refine ⟨?_, ?_, ?_, ?_, ?_⟩
  · simp only [step]
    split
    · exact Nat.le_refl _
    · split
      · exact Nat.le_succ _
      · split
        · exact Nat.le_refl _
        · exact Nat.le_refl _
  · simp only [step]
    split
    · exact Nat.le_refl _
    · split
      · exact Nat.le_refl _
      · split
        · exact Nat.le_succ _
        · exact Nat.le_refl _
  · simp only [step]
    split
    · intro h; exact absurd rfl h
    · split
      · intro _; exact ⟨rfl, rfl, rfl⟩
      · split
        · intro h; exact absurd rfl h
        · intro h; exact absurd rfl h
  · intro hc
    simp only [step]
    split
    · exact Nat.le_refl _
    · split
      · exact hc
      · split
        · exact Nat.le_refl _
        · exact Nat.le_refl _
  · intro s' hst hV hC hT
    have hdb : ∀ X : FCode, dbNext cfg inp s' X = dbNext cfg inp s X := by
      intro X; cases X <;> simp [dbNext, chDb, hV, hC, hT]
    have hfc : ∀ X : FCode, faultCross cfg inp s' X = faultCross cfg inp s X := by
      intro X; simp [faultCross, hdb]
    have hwc : ∀ X : FCode, warnCross cfg inp s' X = warnCross cfg inp s X := by
      intro X; simp [warnCross, hdb]
    rw [state_step, state_step]
    simp only [hfc, hwc, hst]

/-- C7 witness: one nominal step from the faulted state leaves `fault_count`
and `warning_count` no smaller and does not decrease `last_fault_cycle`. -/
theorem C7_counter_telemetry_witness :
    faultedS.fault_count ≤ (step cfgW nomI 184 faultedS).fault_count ∧
    faultedS.warning_count ≤ (step cfgW nomI 184 faultedS).warning_count ∧
    faultedS.last_fault_cycle ≤ (step cfgW nomI 184 faultedS).last_fault_cycle :=
  ⟨(C7_counter_telemetry cfgW nomI 184 faultedS).1,
   (C7_counter_telemetry cfgW nomI 184 faultedS).2.1,
   (C7_counter_telemetry cfgW nomI 184 faultedS).2.2.2.1 (by decide)⟩

/-- A cycle on which no updated debounce counter reaches the WARNING
threshold (and hence none reaches the FAULT threshold) only updates the
counters. -/
theorem step_no_cross (cfg : Config) (inp : Inputs) (c : Nat) (s : MState)
    (hr : inp.manual_reset = false)
    (h : ∀ X : FCode, dbNext cfg inp s X < cfg.warnThresh)
    (hwf : cfg.warnThresh ≤ cfg.faultThresh) :
    step cfg inp c s = { s with dbV := dbNext cfg inp s FCode.VOLTAGE,
                                dbC := dbNext cfg inp s FCode.CURRENT,
                                dbT := dbNext cfg inp s FCode.TEMPERATURE } := by
  have hw : ∀ X : FCode, warnCross cfg inp s X = false := by
    intro X
    have hx := h X
    have hd : decide (cfg.warnThresh ≤ dbNext cfg inp s X) = false := by
      rw [decide_eq_false_iff_not]; omega
    simp [warnCross, hd]
  have hf : ∀ X : FCode, faultCross cfg inp s X = false := by
    intro X
    have hx := h X
    have hd : decide (cfg.faultThresh ≤ dbNext cfg inp s X) = false := by
      rw [decide_eq_false_iff_not]; omega
    simp [faultCross, hd]
  simp [step, hr, hw, hf]

/-- Any input segment shorter than the WARNING debounce threshold, starting
from counters that keep all channels below the threshold throughout, leaves
the severity state, both cumulative counters, the latched code and
`last_fault_cycle` unchanged, and bounds the counters by their growth. -/
theorem run_spike_bound (cfg : Config) (l : List Inputs) :
    ∀ (s : MState) (c : Nat),
    (∀ i ∈ l, i.manual_reset = false) →
    cfg.warnThresh ≤ cfg.faultThresh →
    s.dbV + l.length < cfg.warnThresh →
    s.dbC + l.length < cfg.warnThresh →
    s.dbT + l.length < cfg.warnThresh →
    (run cfg s c l).state = s.state ∧
    (run cfg s c l).fault_count = s.fault_count ∧
    (run cfg s c l).warning_count = s.warning_count ∧
    (run cfg s c l).active_fault_code = s.active_fault_code ∧
    (run cfg s c l).last_fault_cycle = s.last_fault_cycle ∧
    (run cfg s c l).dbV ≤ s.dbV + l.length ∧
    (run cfg s c l).dbC ≤ s.dbC + l.length ∧
    (run cfg s c l).dbT ≤ s.dbT + l.length := by
  induction l with
  | nil =>
      intro s c _ _ _ _ _
      simp [run]
  | cons i l ih =>
      intro s c hnr hwf hv hc ht
      have hri : i.manual_reset = false := hnr i (List.mem_cons_self i l)
      have hbound : ∀ X : FCode, dbNext cfg i s X ≤ chDb s X + 1 := by
        intro X
        unfold dbNext
        split
        · exact Nat.le_refl _
        · exact Nat.zero_le _
      have hlt : ∀ X : FCode, dbNext cfg i s X < cfg.warnThresh := by
        intro X
        have h1 := hbound X
        cases X <;> simp only [chDb] at h1 <;> simp only [List.length_cons] at hv hc ht <;> omega
      rw [run, step_no_cross cfg i c s hri hlt hwf]
      have hstep := ih { s with dbV := dbNext cfg i s FCode.VOLTAGE,
                                dbC := dbNext cfg i s FCode.CURRENT,
                                dbT := dbNext cfg i s FCode.TEMPERATURE }
        (c + 1) (fun j hj => hnr j (List.mem_cons_of_mem i hj)) hwf
        (by have := hbound FCode.VOLTAGE; simp only [chDb] at this; simp only [List.length_cons] at hv; simp; omega)
        (by have := hbound FCode.CURRENT; simp only [chDb] at this; simp only [List.length_cons] at hc; simp; omega)
        (by have := hbound FCode.TEMPERATURE; simp only [chDb] at this; simp only [List.length_cons] at ht; simp; omega)
      refine ⟨hstep.1, hstep.2.1, hstep.2.2.1, hstep.2.2.2.1, hstep.2.2.2.2.1, ?_, ?_, ?_⟩
      · have h1 := hstep.2.2.2.2.2.1
        have h2 := hbound FCode.VOLTAGE
        simp only [chDb] at h2
        simp only [List.length_cons]
        simp at h1
        omega
      · have h1 := hstep.2.2.2.2.2.2.1
        have h2 := hbound FCode.CURRENT
        simp only [chDb] at h2
        simp only [List.length_cons]
        simp at h1
        omega
      · have h1 := hstep.2.2.2.2.2.2.2
        have h2 := hbound FCode.TEMPERATURE
        simp only [chDb] at h2
        simp only [List.length_cons]
        simp at h1
        omega

/-- While every channel is in-range or masked (and no manual reset), the
severity state, counters and latched code are all unchanged, whatever the
starting counters were (positive thresholds). -/
theorem run_quiet (cfg : Config) (l : List Inputs) :
    ∀ (s : MState) (c : Nat),
    (∀ i ∈ l, i.manual_reset = false ∧ ∀ X : FCode, chOut cfg i X = false) →
    0 < cfg.warnThresh →
    cfg.warnThresh ≤ cfg.faultThresh →
    (run cfg s c l).state = s.state ∧
    (run cfg s c l).fault_count = s.fault_count ∧
    (run cfg s c l).warning_count = s.warning_count ∧
    (run cfg s c l).active_fault_code = s.active_fault_code ∧
    (run cfg s c l).last_fault_cycle = s.last_fault_cycle := by
  induction l with
  | nil =>
      intro s c _ _ _
      simp [run]
  | cons i l ih =>
      intro s c hq hw0 hwf
      obtain ⟨hri, hout⟩ := hq i (List.mem_cons_self i l)
      have hlt : ∀ X : FCode, dbNext cfg i s X < cfg.warnThresh := by
        intro X
        simp [dbNext, hout X]
        omega
      rw [run, step_no_cross cfg i c s hri hlt hwf]
      exact ih _ (c + 1) (fun j hj => hq j (List.mem_cons_of_mem i hj)) hw0 hwf

/-- C6: an out-of-range excursion lasting fewer consecutive cycles than the
WARNING debounce threshold, followed by a return to in-range readings,
leaves the severity state (and all counters and the latched code)
unchanged: transient spikes never trigger any escalation. -/
theorem C6_transient_spike (cfg : Config) (c : Nat) (s : MState) (l lnom : List Inputs)
    (hw0 : 0 < cfg.warnThresh) (hwf : cfg.warnThresh ≤ cfg.faultThresh)
    (hlen : l.length < cfg.warnThresh)
    (hlr : ∀ i ∈ l, i.manual_reset = false)
    (hdbV : s.dbV = 0) (hdbC : s.dbC = 0) (hdbT : s.dbT = 0)
    (hnom : ∀ i ∈ lnom, i.manual_reset = false ∧ ∀ X : FCode, chOut cfg i X = false) :
    (run cfg s c (l ++ lnom)).state = s.state ∧
    (run cfg s c (l ++ lnom)).fault_count = s.fault_count ∧
    (run cfg s c (l ++ lnom)).warning_count = s.warning_count ∧
    (run cfg s c (l ++ lnom)).active_fault_code = s.active_fault_code := by
  rw [run_append]
  have h1 := run_spike_bound cfg l s c hlr hwf (by omega) (by omega) (by omega)
  have h2 := run_quiet cfg lnom (run cfg s c l) (c + l.length) hnom hw0 hwf
  exact ⟨h2.1.trans h1.1, h2.2.1.trans h1.2.1, h2.2.2.1.trans h1.2.2.1,
         h2.2.2.2.1.trans h1.2.2.2.1⟩

/-- C6 witness: the harness's 4-cycle spike to code 290 followed by 40
nominal cycles leaves the monitor in NORMAL with clear counters. -/
theorem C6_transient_spike_witness :
    (List.replicate 4 spikeI).length < cfgW.warnThresh ∧
    (run cfgW initState 104 (List.replicate 4 spikeI ++ List.replicate 40 nomI)).state
      = Sev.NORMAL :=
  ⟨by decide,
   (C6_transient_spike cfgW 104 initState (List.replicate 4 spikeI)
     (List.replicate 40 nomI) (by decide) (by decide) (by decide) (by decide)
     rfl rfl rfl (by decide)).1⟩

/-- One step while exactly one channel `X` drives its counter (all other
channels are in-range or masked, no reset): the counter of `X` advances and
the machine escalates according to the thresholds, latching `X` on a FAULT
transition. -/
theorem solo_step (cfg : Config) (inp : Inputs) (X : FCode) (c : Nat) (s : MState)
    (hr : inp.manual_reset = false)
    (hout : chOut cfg inp X = true)
    (hothers : ∀ Y : FCode, Y ≠ X → chOut cfg inp Y = false)
    (hw0 : 0 < cfg.warnThresh) (hwf : cfg.warnThresh ≤ cfg.faultThresh) :
    step cfg inp c s =
      if cfg.faultThresh ≤ chDb s X + 1 ∧ (s.state = Sev.NORMAL ∨ s.state = Sev.WARNING) then
        { state := Sev.FAULT, active_fault_code := X,
          dbV := if X = FCode.VOLTAGE then chDb s X + 1 else 0,
          dbC := if X = FCode.CURRENT then chDb s X + 1 else 0,
          dbT := if X = FCode.TEMPERATURE then chDb s X + 1 else 0,
          fault_count := s.fault_count + 1,
          warning_count := s.warning_count,
          last_fault_cycle := c }
      else if cfg.warnThresh ≤ chDb s X + 1 ∧ s.state = Sev.NORMAL then
        { s with state := Sev.WARNING, warning_count := s.warning_count + 1,
                 dbV := if X = FCode.VOLTAGE then chDb s X + 1 else 0,
                 dbC := if X = FCode.CURRENT then chDb s X + 1 else 0,
                 dbT := if X = FCode.TEMPERATURE then chDb s X + 1 else 0 }
      else
        { s with dbV := if X = FCode.VOLTAGE then chDb s X + 1 else 0,
                 dbC := if X = FCode.CURRENT then chDb s X + 1 else 0,
                 dbT := if X = FCode.TEMPERATURE then chDb s X + 1 else 0 } := by
  have hf0 : 0 < cfg.faultThresh := Nat.lt_of_lt_of_le hw0 hwf
  cases X with
  | NONE => simp [chOut, chRawOut] at hout
  | VOLTAGE =>
      have hdV : dbNext cfg inp s FCode.VOLTAGE = s.dbV + 1 := by
        simp [dbNext, hout, chDb]
      have hdC : dbNext cfg inp s FCode.CURRENT = 0 := by
        simp [dbNext, hothers FCode.CURRENT (by decide)]
      have hdT : dbNext cfg inp s FCode.TEMPERATURE = 0 := by
        simp [dbNext, hothers FCode.TEMPERATURE (by decide)]
      have hmV : inp.mask_voltage = false := by
        have h := hout
        simp only [chOut, Bool.and_eq_true, Bool.not_eq_true', chMask] at h
        exact h.1
      have hfV : faultCross cfg inp s FCode.VOLTAGE
          = decide (cfg.faultThresh ≤ s.dbV + 1) := by
        simp [faultCross, hdV, chMask, hmV]
      have hwV : warnCross cfg inp s FCode.VOLTAGE
          = decide (cfg.warnThresh ≤ s.dbV + 1) := by
        simp [warnCross, hdV, chMask, hmV]
      have hfC : faultCross cfg inp s FCode.CURRENT = false := by
        have hd : decide (cfg.faultThresh ≤ dbNext cfg inp s FCode.CURRENT) = false := by
          rw [hdC, decide_eq_false_iff_not]; omega
        simp [faultCross, hd]
      have hfT : faultCross cfg inp s FCode.TEMPERATURE = false := by
        have hd : decide (cfg.faultThresh ≤ dbNext cfg inp s FCode.TEMPERATURE) = false := by
          rw [hdT, decide_eq_false_iff_not]; omega
        simp [faultCross, hd]
      have hwC : warnCross cfg inp s FCode.CURRENT = false := by
        have hd : decide (cfg.warnThresh ≤ dbNext cfg inp s FCode.CURRENT) = false := by
          rw [hdC, decide_eq_false_iff_not]; omega
        simp [warnCross, hd]
      have hwT : warnCross cfg inp s FCode.TEMPERATURE = false := by
        have hd : decide (cfg.warnThresh ≤ dbNext cfg inp s FCode.TEMPERATURE) = false := by
          rw [hdT, decide_eq_false_iff_not]; omega
        simp [warnCross, hd]
      by_cases h1 : cfg.faultThresh ≤ s.dbV + 1 ∧ (s.state = Sev.NORMAL ∨ s.state = Sev.WARNING)
      · simp [step, hr, hfV, hfC, hfT, hdV, hdC, hdT, chDb, h1.1, h1.2, h1]
      · rw [if_neg (by simpa [chDb] using h1)]
        by_cases h2 : cfg.warnThresh ≤ s.dbV + 1 ∧ s.state = Sev.NORMAL
        · rw [if_pos (by simpa [chDb] using h2)]
          rcases Decidable.not_and_iff_or_not.mp h1 with h1a | h1b
          · simp [step, hr, hfV, hfC, hfT, hwV, hwC, hwT, hdV, hdC, hdT, chDb,
              h1a, h2.1, h2.2]
          · exact absurd (Or.inl h2.2) h1b
        · rw [if_neg (by simpa [chDb] using h2)]
          rcases Decidable.not_and_iff_or_not.mp h1 with h1a | h1b <;>
            rcases Decidable.not_and_iff_or_not.mp h2 with h2a | h2b
          · simp [step, hr, hfV, hfC, hfT, hwV, hwC, hwT, hdV, hdC, hdT, chDb, h1a, h2a]
          · simp [step, hr, hfV, hfC, hfT, hwV, hwC, hwT, hdV, hdC, hdT, chDb, h1a, h2b]
          · simp [step, hr, hfV, hfC, hfT, hwV, hwC, hwT, hdV, hdC, hdT, chDb, h1b, h2a]
          · have hnN : s.state ≠ Sev.NORMAL := fun hq => h1b (Or.inl hq)
            have hnW : s.state ≠ Sev.WARNING := fun hq => h1b (Or.inr hq)
            simp [step, hr, hfV, hfC, hfT, hwV, hwC, hwT, hdV, hdC, hdT, chDb, hnN, hnW]
  | CURRENT =>
      have hdC : dbNext cfg inp s FCode.CURRENT = s.dbC + 1 := by
        simp [dbNext, hout, chDb]
      have hdV : dbNext cfg inp s FCode.VOLTAGE = 0 := by
        simp [dbNext, hothers FCode.VOLTAGE (by decide)]
      have hdT : dbNext cfg inp s FCode.TEMPERATURE = 0 := by
        simp [dbNext, hothers FCode.TEMPERATURE (by decide)]
      have hmC : inp.mask_current = false := by
        have h := hout
        simp only [chOut, Bool.and_eq_true, Bool.not_eq_true', chMask] at h
        exact h.1
      have hfC : faultCross cfg inp s FCode.CURRENT
          = decide (cfg.faultThresh ≤ s.dbC + 1) := by
        simp [faultCross, hdC, chMask, hmC]
      have hwC : warnCross cfg inp s FCode.CURRENT
          = decide (cfg.warnThresh ≤ s.dbC + 1) := by
        simp [warnCross, hdC, chMask, hmC]
      have hfV : faultCross cfg inp s FCode.VOLTAGE = false := by
        have hd : decide (cfg.faultThresh ≤ dbNext cfg inp s FCode.VOLTAGE) = false := by
          rw [hdV, decide_eq_false_iff_not]; omega
        simp [faultCross, hd]
      have hfT : faultCross cfg inp s FCode.TEMPERATURE = false := by
        have hd : decide (cfg.faultThresh ≤ dbNext cfg inp s FCode.TEMPERATURE) = false := by
          rw [hdT, decide_eq_false_iff_not]; omega
        simp [faultCross, hd]
      have hwV : warnCross cfg inp s FCode.VOLTAGE = false := by
        have hd : decide (cfg.warnThresh ≤ dbNext cfg inp s FCode.VOLTAGE) = false := by
          rw [hdV, decide_eq_false_iff_not]; omega
        simp [warnCross, hd]
      have hwT : warnCross cfg inp s FCode.TEMPERATURE = false := by
        have hd : decide (cfg.warnThresh ≤ dbNext cfg inp s FCode.TEMPERATURE) = false := by
          rw [hdT, decide_eq_false_iff_not]; omega
        simp [warnCross, hd]
      by_cases h1 : cfg.faultThresh ≤ s.dbC + 1 ∧ (s.state = Sev.NORMAL ∨ s.state = Sev.WARNING)
      · simp [step, hr, hfV, hfC, hfT, hdV, hdC, hdT, chDb, h1.1, h1.2, h1]
      · rw [if_neg (by simpa [chDb] using h1)]
        by_cases h2 : cfg.warnThresh ≤ s.dbC + 1 ∧ s.state = Sev.NORMAL
        · rw [if_pos (by simpa [chDb] using h2)]
          rcases Decidable.not_and_iff_or_not.mp h1 with h1a | h1b
          · simp [step, hr, hfV, hfC, hfT, hwV, hwC, hwT, hdV, hdC, hdT, chDb,
              h1a, h2.1, h2.2]
          · exact absurd (Or.inl h2.2) h1b
        · rw [if_neg (by simpa [chDb] using h2)]
          rcases Decidable.not_and_iff_or_not.mp h1 with h1a | h1b <;>
            rcases Decidable.not_and_iff_or_not.mp h2 with h2a | h2b
          · simp [step, hr, hfV, hfC, hfT, hwV, hwC, hwT, hdV, hdC, hdT, chDb, h1a, h2a]
          · simp [step, hr, hfV, hfC, hfT, hwV, hwC, hwT, hdV, hdC, hdT, chDb, h1a, h2b]
          · simp [step, hr, hfV, hfC, hfT, hwV, hwC, hwT, hdV, hdC, hdT, chDb, h1b, h2a]
          · have hnN : s.state ≠ Sev.NORMAL := fun hq => h1b (Or.inl hq)
            have hnW : s.state ≠ Sev.WARNING := fun hq => h1b (Or.inr hq)
            simp [step, hr, hfV, hfC, hfT, hwV, hwC, hwT, hdV, hdC, hdT, chDb, hnN, hnW]
  | TEMPERATURE =>
      have hdT : dbNext cfg inp s FCode.TEMPERATURE = s.dbT + 1 := by
        simp [dbNext, hout, chDb]
      have hdV : dbNext cfg inp s FCode.VOLTAGE = 0 := by
        simp [dbNext, hothers FCode.VOLTAGE (by decide)]
      have hdC : dbNext cfg inp s FCode.CURRENT = 0 := by
        simp [dbNext, hothers FCode.CURRENT (by decide)]
      have hmT : inp.mask_temp = false := by
        have h := hout
        simp only [chOut, Bool.and_eq_true, Bool.not_eq_true', chMask] at h
        exact h.1
      have hfT : faultCross cfg inp s FCode.TEMPERATURE
          = decide (cfg.faultThresh ≤ s.dbT + 1) := by
        simp [faultCross, hdT, chMask, hmT]
      have hwT : warnCross cfg inp s FCode.TEMPERATURE
          = decide (cfg.warnThresh ≤ s.dbT + 1) := by
        simp [warnCross, hdT, chMask, hmT]
      have hfV : faultCross cfg inp s FCode.VOLTAGE = false := by
        have hd : decide (cfg.faultThresh ≤ dbNext cfg inp s FCode.VOLTAGE) = false := by
          rw [hdV, decide_eq_false_iff_not]; omega
        simp [faultCross, hd]
      have hfC : faultCross cfg inp s FCode.CURRENT = false := by
        have hd : decide (cfg.faultThresh ≤ dbNext cfg inp s FCode.CURRENT) = false := by
          rw [hdC, decide_eq_false_iff_not]; omega
        simp [faultCross, hd]
      have hwV : warnCross cfg inp s FCode.VOLTAGE = false := by
        have hd : decide (cfg.warnThresh ≤ dbNext cfg inp s FCode.VOLTAGE) = false := by
          rw [hdV, decide_eq_false_iff_not]; omega
        simp [warnCross, hd]
      have hwC : warnCross cfg inp s FCode.CURRENT = false := by
        have hd : decide (cfg.warnThresh ≤ dbNext cfg inp s FCode.CURRENT) = false := by
          rw [hdC, decide_eq_false_iff_not]; omega
        simp [warnCross, hd]
      by_cases h1 : cfg.faultThresh ≤ s.dbT + 1 ∧ (s.state = Sev.NORMAL ∨ s.state = Sev.WARNING)
      · simp [step, hr, hfV, hfC, hfT, hdV, hdC, hdT, chDb, h1.1, h1.2, h1]
      · rw [if_neg (by simpa [chDb] using h1)]
        by_cases h2 : cfg.warnThresh ≤ s.dbT + 1 ∧ s.state = Sev.NORMAL
        · rw [if_pos (by simpa [chDb] using h2)]
          rcases Decidable.not_and_iff_or_not.mp h1 with h1a | h1b
          · simp [step, hr, hfV, hfC, hfT, hwV, hwC, hwT, hdV, hdC, hdT, chDb,
              h1a, h2.1, h2.2]
          · exact absurd (Or.inl h2.2) h1b
        · rw [if_neg (by simpa [chDb] using h2)]
          rcases Decidable.not_and_iff_or_not.mp h1 with h1a | h1b <;>
            rcases Decidable.not_and_iff_or_not.mp h2 with h2a | h2b
          · simp [step, hr, hfV, hfC, hfT, hwV, hwC, hwT, hdV, hdC, hdT, chDb, h1a, h2a]
          · simp [step, hr, hfV, hfC, hfT, hwV, hwC, hwT, hdV, hdC, hdT, chDb, h1a, h2b]
          · simp [step, hr, hfV, hfC, hfT, hwV, hwC, hwT, hdV, hdC, hdT, chDb, h1b, h2a]
          · have hnN : s.state ≠ Sev.NORMAL := fun hq => h1b (Or.inl hq)
            have hnW : s.state ≠ Sev.WARNING := fun hq => h1b (Or.inr hq)
            simp [step, hr, hfV, hfC, hfT, hwV, hwC, hwT, hdV, hdC, hdT, chDb, hnN, hnW]

/-- Read a channel's debounce counter out of a state whose three counter
fields hold the solo-excursion shape. -/
theorem chDb_of_fields (r : MState) (X : FCode) (hX : X ≠ FCode.NONE) (n : Nat)
    (hV : r.dbV = if X = FCode.VOLTAGE then n else 0)
    (hC : r.dbC = if X = FCode.CURRENT then n else 0)
    (hT : r.dbT = if X = FCode.TEMPERATURE then n else 0) :
    chDb r X = n := by
  cases X with
  | NONE => exact absurd rfl hX
  | VOLTAGE => simp [chDb, hV]
  | CURRENT => simp [chDb, hC]
  | TEMPERATURE => simp [chDb, hT]

/-- Phase portrait of a solo continuous excursion on channel `X`: starting
from NORMAL with a clear counter, after `k` cycles the counter equals `k`;
below the WARNING threshold nothing changed; between the thresholds the
machine is in WARNING with `warning_count` bumped once; from the FAULT
threshold on it is in FAULT with `X` latched, `fault_count` bumped exactly
once, and `last_fault_cycle` recording the crossing cycle. -/
theorem solo_run_phases (cfg : Config) (inp : Inputs) (X : FCode) (s : MState) (c : Nat)
    (hr : inp.manual_reset = false)
    (hout : chOut cfg inp X = true)
    (hothers : ∀ Y : FCode, Y ≠ X → chOut cfg inp Y = false)
    (hw0 : 0 < cfg.warnThresh) (hwf : cfg.warnThresh < cfg.faultThresh)
    (hs : s.state = Sev.NORMAL) (hdb : chDb s X = 0) :
    ∀ k : Nat,
      chDb (run cfg s c (List.replicate k inp)) X = k ∧
      (k < cfg.warnThresh →
        (run cfg s c (List.replicate k inp)).state = Sev.NORMAL ∧
        (run cfg s c (List.replicate k inp)).warning_count = s.warning_count ∧
        (run cfg s c (List.replicate k inp)).fault_count = s.fault_count ∧
        (run cfg s c (List.replicate k inp)).active_fault_code = s.active_fault_code) ∧
      (cfg.warnThresh ≤ k → k < cfg.faultThresh →
        (run cfg s c (List.replicate k inp)).state = Sev.WARNING ∧
        (run cfg s c (List.replicate k inp)).warning_count = s.warning_count + 1 ∧
        (run cfg s c (List.replicate k inp)).fault_count = s.fault_count ∧
        (run cfg s c (List.replicate k inp)).active_fault_code = s.active_fault_code) ∧
      (cfg.faultThresh ≤ k →
        (run cfg s c (List.replicate k inp)).state = Sev.FAULT ∧
        (run cfg s c (List.replicate k inp)).warning_count = s.warning_count + 1 ∧
        (run cfg s c (List.replicate k inp)).fault_count = s.fault_count + 1 ∧
        (run cfg s c (List.replicate k inp)).active_fault_code = X ∧
        (run cfg s c (List.replicate k inp)).last_fault_cycle
          = c + cfg.faultThresh - 1) := by
  have hXnone : X ≠ FCode.NONE := by
    intro h
    subst h
    simp [chOut, chRawOut] at hout
  have hwf' : cfg.warnThresh ≤ cfg.faultThresh := Nat.le_of_lt hwf
  intro k
  induction k with
  | zero =>
      refine ⟨hdb, fun _ => ⟨hs, rfl, rfl, rfl⟩, fun hk _ => absurd hk (by omega),
        fun hk => absurd hk (by omega)⟩
  | succ k ih =>
      obtain ⟨ihdb, ih1, ih2, ih3⟩ := ih
      rw [List.replicate_succ' k inp, run_append, List.length_replicate]
      set t := run cfg s c (List.replicate k inp) with ht
      have hone : run cfg t (c + k) [inp] = step cfg inp (c + k) t := rfl
      rw [hone, solo_step cfg inp X (c + k) t hr hout hothers hw0 hwf']
      by_cases hA : k + 1 < cfg.warnThresh
      · have hnf : ¬(cfg.faultThresh ≤ chDb t X + 1 ∧
            (t.state = Sev.NORMAL ∨ t.state = Sev.WARNING)) := by
          intro hcon
          have h := hcon.1
          rw [ihdb] at h
          omega
        have hnw : ¬(cfg.warnThresh ≤ chDb t X + 1 ∧ t.state = Sev.NORMAL) := by
          intro hcon
          have h := hcon.1
          rw [ihdb] at h
          omega
        rw [if_neg hnf, if_neg hnw]
        obtain ⟨h1a, h1b, h1c, h1d⟩ := ih1 (by omega)
        refine ⟨(chDb_of_fields _ X hXnone (chDb t X + 1) rfl rfl rfl).trans
          (by rw [ihdb]), fun _ => ⟨h1a, h1b, h1c, h1d⟩, fun hk1 _ => absurd hk1 (by omega),
          fun hk1 => absurd hk1 (by omega)⟩
      · by_cases hB : k + 1 < cfg.faultThresh
        · have hnf : ¬(cfg.faultThresh ≤ chDb t X + 1 ∧
              (t.state = Sev.NORMAL ∨ t.state = Sev.WARNING)) := by
            intro hcon
            have h := hcon.1
            rw [ihdb] at h
            omega
          rw [if_neg hnf]
          by_cases hk : k < cfg.warnThresh
          · obtain ⟨h1a, h1b, h1c, h1d⟩ := ih1 hk
            have hyw : cfg.warnThresh ≤ chDb t X + 1 ∧ t.state = Sev.NORMAL :=
              ⟨by rw [ihdb]; omega, h1a⟩
            rw [if_pos hyw]
            refine ⟨(chDb_of_fields _ X hXnone (chDb t X + 1) rfl rfl rfl).trans
              (by rw [ihdb]), fun hk1 => absurd hk1 (by omega), fun _ _ => ?_,
              fun hk1 => absurd hk1 (by omega)⟩
            refine ⟨rfl, ?_, h1c, h1d⟩
            show t.warning_count + 1 = s.warning_count + 1
            rw [h1b]
          · obtain ⟨h2a, h2b, h2c, h2d⟩ := ih2 (by omega) (by omega)
            have hnw : ¬(cfg.warnThresh ≤ chDb t X + 1 ∧ t.state = Sev.NORMAL) := by
              intro hcon
              have h := hcon.2
              rw [h2a] at h
              exact absurd h (by decide)
            rw [if_neg hnw]
            refine ⟨(chDb_of_fields _ X hXnone (chDb t X + 1) rfl rfl rfl).trans
              (by rw [ihdb]), fun hk1 => absurd hk1 (by omega), fun _ _ => ⟨h2a, h2b, h2c, h2d⟩,
              fun hk1 => absurd hk1 (by omega)⟩
        · by_cases hk : k < cfg.faultThresh
          · obtain ⟨h2a, h2b, h2c, h2d⟩ := ih2 (by omega) (by omega)
            have hyf : cfg.faultThresh ≤ chDb t X + 1 ∧
                (t.state = Sev.NORMAL ∨ t.state = Sev.WARNING) :=
              ⟨by rw [ihdb]; omega, Or.inr h2a⟩
            rw [if_pos hyf]
            refine ⟨(chDb_of_fields _ X hXnone (chDb t X + 1) rfl rfl rfl).trans
              (by rw [ihdb]), fun hk1 => absurd hk1 (by omega),
              fun _ hk2 => absurd hk2 (by omega), fun _ => ?_⟩
            refine ⟨rfl, h2b, ?_, rfl, ?_⟩
            · show t.fault_count + 1 = s.fault_count + 1
              rw [h2c]
            · show c + k = c + cfg.faultThresh - 1
              omega
          · obtain ⟨h3a, h3b, h3c, h3d, h3e⟩ := ih3 (by omega)
            have hnf : ¬(cfg.faultThresh ≤ chDb t X + 1 ∧
                (t.state = Sev.NORMAL ∨ t.state = Sev.WARNING)) := by
              intro hcon
              rcases hcon.2 with h | h <;> rw [h3a] at h <;> exact absurd h (by decide)
            have hnw : ¬(cfg.warnThresh ≤ chDb t X + 1 ∧ t.state = Sev.NORMAL) := by
              intro hcon
              have h := hcon.2
              rw [h3a] at h
              exact absurd h (by decide)
            rw [if_neg hnf, if_neg hnw]
            refine ⟨(chDb_of_fields _ X hXnone (chDb t X + 1) rfl rfl rfl).trans
              (by rw [ihdb]), fun hk1 => absurd hk1 (by omega),
              fun _ hk2 => absurd hk2 (by omega),
              fun _ => ⟨h3a, h3b, h3c, h3d, h3e⟩⟩

/-- C1: a channel held out-of-range continuously for at least the FAULT
debounce threshold many cycles, unmasked and as the only excursion,
escalates the monitor (started in NORMAL with a clear counter) through
WARNING to FAULT, latches exactly that channel's code, and increments
`fault_count` — and `warning_count` — exactly once for the whole continuous
excursion, however long it lasts. -/
theorem C1_debounced_fault_escalation (cfg : Config) (inp : Inputs) (X : FCode)
    (s : MState) (c n : Nat)
    (hr : inp.manual_reset = false)
    (hout : chOut cfg inp X = true)
    (hothers : ∀ Y : FCode, Y ≠ X → chOut cfg inp Y = false)
    (hw0 : 0 < cfg.warnThresh) (hwf : cfg.warnThresh < cfg.faultThresh)
    (hs : s.state = Sev.NORMAL) (hdb : chDb s X = 0)
    (hn : cfg.faultThresh ≤ n) :
    (run cfg s c (List.replicate n inp)).state = Sev.FAULT ∧
    (run cfg s c (List.replicate n inp)).active_fault_code = X ∧
    (run cfg s c (List.replicate n inp)).fault_count = s.fault_count + 1 ∧
    (run cfg s c (List.replicate n inp)).warning_count = s.warning_count + 1 := by
  obtain ⟨ha, hb, hc', hd, _⟩ :=
    (solo_run_phases cfg inp X s c hr hout hothers hw0 hwf hs hdb n).2.2.2 hn
  exact ⟨ha, hd, hc', hb⟩

/-- C1 witness: the harness's 300-cycle single-cell under-read at code 280
(cell nominal 360) drives the monitor from power-on NORMAL to FAULT with
`active_fault_code = VOLTAGE`, `fault_count = 1` and `warning_count = 1`. -/
theorem C1_debounced_fault_escalation_witness :
    (run cfgW initState 144 (List.replicate 300 uvI)).state = Sev.FAULT ∧
    (run cfgW initState 144 (List.replicate 300 uvI)).active_fault_code
      = FCode.VOLTAGE ∧
    (run cfgW initState 144 (List.replicate 300 uvI)).fault_count = 1 ∧
    (run cfgW initState 144 (List.replicate 300 uvI)).warning_count = 1 :=
  C1_debounced_fault_escalation cfgW uvI FCode.VOLTAGE initState 144 300
    rfl (by decide) (by decide) (by decide) (by decide) rfl rfl (by decide)

end FaultFSM


namespace HarnessModel

/-- The packing loop is the base-`2 ^ W` numeral evaluation: with the
accumulator confined to the bits below offset `i * W`, the remaining values
land strictly above it. -/
theorem pack_cells_go_eq (W : Nat) :
    ∀ (vals : List Nat) (i packed : Nat), packed < 2 ^ (i * W) →
    pack_cells_go W vals i packed = packed + packVal W vals * 2 ^ (i * W) := by
  intro vals
  induction vals with
  | nil =>
      intro i packed _
      simp [pack_cells_go, packVal]
  | cons v rest ih =>
      intro i packed hlt
      rw [pack_cells_go]
      have hfield : (v % 2 ^ W) <<< (i * W) = 2 ^ (i * W) * (v % 2 ^ W) := by
        rw [Nat.shiftLeft_eq, Nat.mul_comm]
      have hor : packed ||| ((v % 2 ^ W) <<< (i * W))
          = packed + 2 ^ (i * W) * (v % 2 ^ W) := by
        rw [hfield, Nat.lor_comm, ← Nat.mul_add_lt_is_or hlt (v % 2 ^ W)]
        exact Nat.add_comm _ _
      have h1 : v % 2 ^ W < 2 ^ W := Nat.mod_lt _ (Nat.two_pow_pos W)
      have h2 : 2 ^ ((i + 1) * W) = 2 ^ (i * W) * 2 ^ W := by
        rw [Nat.add_mul, Nat.one_mul, Nat.pow_add]
      have hnew : packed + 2 ^ (i * W) * (v % 2 ^ W) < 2 ^ ((i + 1) * W) := by
        calc packed + 2 ^ (i * W) * (v % 2 ^ W)
            < 2 ^ (i * W) + 2 ^ (i * W) * (v % 2 ^ W) := Nat.add_lt_add_right hlt _
          _ = 2 ^ (i * W) * (v % 2 ^ W + 1) := by ring
          _ ≤ 2 ^ (i * W) * 2 ^ W := Nat.mul_le_mul_left _ h1
          _ = 2 ^ ((i + 1) * W) := h2.symm
      rw [hor, ih (i + 1) _ hnew, packVal, h2]
      ring

/-- Extracting the `i`-th `W`-bit field of the positional reading recovers
the `i`-th value modulo `2 ^ W`. -/
theorem packVal_extract (W : Nat) :
    ∀ (vals : List Nat) (i : Nat) (hi : i < vals.length),
    packVal W vals / 2 ^ (i * W) % 2 ^ W = vals.get ⟨i, hi⟩ % 2 ^ W := by
  intro vals
  induction vals with
  | nil =>
      intro i hi
      exact absurd hi (by simp)
  | cons v rest ih =>
      intro i hi
      cases i with
      | zero =>
          simp only [packVal, Nat.zero_mul, Nat.pow_zero, Nat.div_one, List.get]
          rw [Nat.add_mul_mod_self_left]
          exact Nat.mod_mod_of_dvd v (dvd_refl _)
      | succ i =>
          have h2 : 2 ^ ((i + 1) * W) = 2 ^ W * 2 ^ (i * W) := by
            rw [Nat.add_mul, Nat.one_mul, Nat.pow_add, Nat.mul_comm]
          have hv : v % 2 ^ W < 2 ^ W := Nat.mod_lt _ (Nat.two_pow_pos W)
          rw [packVal, h2, ← Nat.div_div_eq_div_mul,
            Nat.add_mul_div_left _ _ (Nat.two_pow_pos W),
            Nat.div_eq_of_lt hv, Nat.zero_add]
          exact ih i (Nat.lt_of_succ_lt_succ hi)

/-- C9: `pack_cells` stores, for each index `i`, exactly `vals[i] mod 2 ^ W`
in bit positions `[i*W, (i+1)*W)` of the returned word (out-of-range values
are silently truncated modulo `2 ^ W`, not rejected); whenever the value
fits in `W` bits the packing is lossless: extracting the `i`-th `W`-bit
field recovers `vals[i]`. -/
theorem C9_pack_cells (vals : List Nat) (W i : Nat) (hi : i < vals.length)
    (h64 : vals.length * W ≤ 64) :
    (pack_cells vals W >>> (i * W)) % 2 ^ W = vals.get ⟨i, hi⟩ % 2 ^ W ∧
    (vals.get ⟨i, hi⟩ < 2 ^ W →
      (pack_cells vals W >>> (i * W)) % 2 ^ W = vals.get ⟨i, hi⟩) := by
  have h0 : pack_cells vals W = packVal W vals := by
    have h := pack_cells_go_eq W vals 0 0 (by simp)
    simpa [pack_cells] using h
  have hsh : pack_cells vals W >>> (i * W) = packVal W vals / 2 ^ (i * W) := by
    rw [h0, Nat.shiftRight_eq_div_pow]
  refine ⟨by rw [hsh]; exact packVal_extract W vals i hi, fun hlt => ?_⟩
  rw [hsh, packVal_extract W vals i hi, Nat.mod_eq_of_lt hlt]

/-- C9 witness: the harness's 4-cell vector at width 12 puts cell 2's code
280 in bits 24-35, recovered exactly. -/
theorem C9_pack_cells_witness :
    2 < ([360, 360, 280, 360] : List Nat).length ∧
    ([360, 360, 280, 360] : List Nat).length * 12 ≤ 64 ∧
    (pack_cells [360, 360, 280, 360] 12 >>> (2 * 12)) % 2 ^ 12 = 280 :=
  ⟨by decide, by decide,
   (C9_pack_cells [360, 360, 280, 360] 12 2 (by decide) (by decide)).2 (by decide)⟩

/-- C10: every `tick` evaluates the model three times (two low-clock phases
and one high-clock phase), increments `cycle` by exactly 1 and advances
`main_time` by exactly 15; hence `main_time = 15 * cycle` is invariant and
`sc_time_stamp` returns 15 times the number of completed ticks. -/
theorem C10_time_cycle_invariant :
    (∀ h : HState,
      (tick h).cycle = h.cycle + 1 ∧
      (tick h).main_time = h.main_time + 15 ∧
      (tick h).evalTrace = h.evalTrace ++ [false, true, false]) ∧
    (∀ n : Nat,
      sc_time_stamp (ticks n) = 15 * (ticks n).cycle ∧
      (ticks n).cycle = n ∧
      (ticks n).main_time = 15 * n ∧
      (ticks n).evalTrace.length = 3 * n) := by
  constructor
  · intro h
    refine ⟨rfl, rfl, ?_⟩
    simp [tick, evalPhase]
  · intro n
    induction n with
    | zero => simp [ticks, harness0, sc_time_stamp]
    | succ n ih =>
        obtain ⟨ih1, ih2, ih3, ih4⟩ := ih
        refine ⟨?_, ?_, ?_, ?_⟩ <;>
          simp [ticks, tick, evalPhase, sc_time_stamp, ih1, ih2, ih3, ih4] <;> omega

end HarnessModel
